import Mathlib

/-!
Shallow embedding of core/handler/convert_fields_custom.go.

The file under verification runs user-supplied JavaScript transforms
(Decoder, Converter, Validator, Encoder) through an external runtime,
functions.RunCode, and strictly checks each returned value before trusting
it. The runtime itself is an external collaborator: we model it as an
arbitrary function of the same shape (name, code, environment, timeout,
logger) that is passed explicitly into every pipeline function.

Go conventions mapped to Lean: a Go pair (T, error) becomes
Option T times Option Err (none models a nil slice or nil map); machine
integers become Nat or Int with explicit two-power wrapping where Go
conversions can wrap; JavaScript or Go floating point numbers are modelled
as exact rationals, which matches Go semantics on every value the claims
touch (conversion to int64 truncates toward zero, and the round-trip test
float64(n) == t detects a fractional part).
-/

/-- Error values produced by the pipeline. The source builds its own errors
with errors.NewErrInvalidArgument(subject, reason); errors coming back from
the external script runtime (timeouts, script exceptions) are abstract. -/
inductive Err where
  | invalidArgument (subject reason : String)
  | runtime (msg : String)
  deriving DecidableEq, Repr

/-- JSON-like values stored in a decoded field map, per the data model. -/
inductive FieldVal where
  | str (s : String)
  | num (q : ℚ)
  | boolean (b : Bool)
  | arr (xs : List FieldVal)
  | obj (m : List (String × FieldVal))

/-- A map from field name to JSON-like value (Go map of string to any). -/
abbrev FieldMap := List (String × FieldVal)

/-- One element of a slice exported from the runtime, as seen by the type
switch in DownlinkFunctions.Encode. Payloads carry the machine value of the
corresponding Go type: unsigned payloads are reduced modulo the type width
and signed payloads wrapped into the signed range by the value function, so
every representable Go value has a faithful image. Floating point payloads
are exact rationals. -/
inductive GoElem where
  | byte (t : Nat)
  | int (t : Int)
  | int8 (t : Int)
  | int16 (t : Int)
  | uint16 (t : Nat)
  | int32 (t : Int)
  | uint32 (t : Nat)
  | int64 (t : Int)
  | uint64 (t : Nat)
  | float32 (t : ℚ)
  | float64 (t : ℚ)
  | other
  deriving DecidableEq, Repr

/-- The Go value obtained from otto Export: either a map (the shape the
Decode and Convert stages assert), a slice (the shape Encode asserts), or
anything else. -/
inductive GoValue where
  | map (m : FieldMap)
  | slice (xs : List GoElem)
  | other

/-- A tagged value returned by the script runtime, observed only through
the operations the source uses: IsObject, IsBoolean, Export (a Go value
plus an error), and ToBoolean (a boolean plus an error). -/
structure JsValue where
  isObject : Bool
  isBoolean : Bool
  exported : GoValue
  exportErr : Option Err
  toBool : Bool
  toBoolErr : Option Err

/-- The logging sink is opaque: nothing in this file observes it. -/
def Logger : Type := Unit

/-- A binding passed to the runtime: the byte payload, the numeric port, or
a field map. -/
inductive EnvVal where
  | bytes (b : List Nat)
  | num (n : Nat)
  | fieldMap (m : Option FieldMap)

/-- The variable environment handed to the runtime. -/
abbrev Env := List (String × EnvVal)

/-- Shape of the external runtime functions.RunCode: transform name, code,
environment, timeout and logger, giving a tagged value or an error. It is
a black box, so the pipeline functions take it as an explicit argument. -/
abbrev RunCode := String → String → Env → Nat → Logger → Except Err JsValue

/-- Maximum time a payload function may run, in milliseconds: the source
declares timeOut as 100 times time.Millisecond. -/
def timeOut : Nat := 100

/-- Code template built in the Decode stage around the Decoder script. -/
def decoderCode (script : String) : String :=
  "\n\t\t" ++ script ++ ";\n\t\tDecoder(payload.slice(0), port);\n\t"

/-- Code template built in the Convert stage around the Converter script. -/
def converterCode (script : String) : String :=
  "\n\t\t" ++ script ++ ";\n\t\tConverter(fields, port)\n\t"

/-- Code template built in the Validate stage around the Validator script. -/
def validatorCode (script : String) : String :=
  "\n\t\t" ++ script ++ ";\n\t\tValidator(fields, port)\n\t"

/-- Code template built in the Encode stage around the Encoder script. -/
def encoderCode (script : String) : String :=
  "\n\t\t" ++ script ++ ";\n\t\tEncoder(payload, port)\n\t"

/-- Environment for the Decode stage: payload bytes and port. -/
def decodeEnv (payload : List Nat) (port : Nat) : Env :=
  [("payload", EnvVal.bytes payload), ("port", EnvVal.num port)]

/-- Environment for the Convert and Validate stages: fields and port. -/
def fieldsEnv (fields : Option FieldMap) (port : Nat) : Env :=
  [("fields", EnvVal.fieldMap fields), ("port", EnvVal.num port)]

/-- Environment for the Encode stage: the field map, bound to the name
payload, and the port. -/
def encodeEnv (payload : Option FieldMap) (port : Nat) : Env :=
  [("payload", EnvVal.fieldMap payload), ("port", EnvVal.num port)]

/-- Uplink transform configuration. The source declares the struct under
the name CustomUplinkFunctions but attaches the methods to a receiver named
UplinkFunctions with the same fields; the claims use the receiver name. -/
structure UplinkFunctions where
  Decoder : String
  Converter : String
  Validator : String
  Logger : Logger

/-- Downlink transform configuration (struct CustomDownlinkFunctions in the
source, methods on DownlinkFunctions). -/
structure DownlinkFunctions where
  Encoder : String
  Logger : Logger

/-- Decode stage. Empty Decoder: return (nil, nil). Otherwise run the
Decoder code; on a runtime error return (nil, err); if the result is not
object-tagged, or exports to something other than a string-keyed map,
return the invalid-argument error; otherwise return the map. The error
value of Export is discarded here, exactly as in the source. -/
def UplinkFunctions.Decode (f : UplinkFunctions) (run : RunCode)
    (payload : List Nat) (port : Nat) : Option FieldMap × Option Err :=
  if f.Decoder = "" then (none, none)
  else
    match run "Decoder" (decoderCode f.Decoder) (decodeEnv payload port) timeOut f.Logger with
    | Except.error e => (none, some e)
    | Except.ok value =>
      if !value.isObject then
        (none, some (Err.invalidArgument "Decoder" "does not return an object"))
      else
        match value.exported with
        | GoValue.map m => (some m, none)
        | _ => (none, some (Err.invalidArgument "Decoder" "does not return an object"))

/-- Convert stage. Empty Converter: pass the fields through unchanged.
Otherwise identical in shape to the Decode stage, over the Converter. -/
def UplinkFunctions.Convert (f : UplinkFunctions) (run : RunCode)
    (fields : Option FieldMap) (port : Nat) : Option FieldMap × Option Err :=
  if f.Converter = "" then (fields, none)
  else
    match run "Converter" (converterCode f.Converter) (fieldsEnv fields port) timeOut f.Logger with
    | Except.error e => (none, some e)
    | Except.ok value =>
      if !value.isObject then
        (none, some (Err.invalidArgument "Converter" "does not return an object"))
      else
        match value.exported with
        | GoValue.map m => (some m, none)
        | _ => (none, some (Err.invalidArgument "Converter" "does not return an object"))

/-- Validate stage. Empty Validator: (true, nil). Otherwise run the
Validator; runtime error: (false, err); non-boolean result: (false,
invalid-argument); boolean result: exactly what ToBoolean returns. -/
def UplinkFunctions.Validate (f : UplinkFunctions) (run : RunCode)
    (fields : Option FieldMap) (port : Nat) : Bool × Option Err :=
  if f.Validator = "" then (true, none)
  else
    match run "Validator" (validatorCode f.Validator) (fieldsEnv fields port) timeOut f.Logger with
    | Except.error e => (false, some e)
    | Except.ok value =>
      if !value.isBoolean then
        (false, some (Err.invalidArgument "Validator" "does not return a boolean"))
      else
        (value.toBool, value.toBoolErr)

/-- Three-result uplink pipeline (the second method the source also names
Decode): Decode, then Convert, then Validate, returning early with
(nil, false, err) when Decode or Convert reports an error, and finally
returning the converted fields together with the Validate outcome. -/
def UplinkFunctions.DecodePipeline (f : UplinkFunctions) (run : RunCode)
    (payload : List Nat) (port : Nat) : Option FieldMap × Bool × Option Err :=
  match f.Decode run payload port with
  | (_, some e) => (none, false, some e)
  | (decoded, none) =>
    match f.Convert run decoded port with
    | (_, some e) => (none, false, some e)
    | (converted, none) => (converted, f.Validate run converted port)

/-- Invalid-argument error for a non-integral or non-numeric array element
in the Encoder output. -/
def invalidIntArrayErr : Err :=
  Err.invalidArgument "Encoder" "should return an Array of integer numbers"

/-- Out-of-range error for an Encoder output byte outside 0..255. -/
def outOfRangeErr : Err :=
  Err.invalidArgument "Encoder Output" "Numbers in Array should be between 0 and 255"

/-- Error returned when fields are to be encoded but no Encoder is set. -/
def missingEncoderErr : Err :=
  Err.invalidArgument "Downlink Payload" "fields supplied, but no Encoder function set"

/-- Reduction of an unsigned Go integer of width w to its machine value. -/
def wrapU (w : Nat) (n : Nat) : Int := ((n % 2 ^ w : Nat) : Int)

/-- Wrap of an integer into the signed range of width w, as a Go conversion
from a wider value to a signed w-bit type does. -/
def wrapS (w : Nat) (n : Int) : Int := (n + 2 ^ (w - 1)) % 2 ^ w - 2 ^ (w - 1)

/-- Truncation toward zero, the semantics of the Go conversion int64(t)
for a floating point t. -/
def truncRat (q : ℚ) : Int := if 0 ≤ q then ⌊q⌋ else ⌈q⌉

/-- One arm of the type switch in DownlinkFunctions.Encode: convert an
element to the int64 n the source computes, or fail. Integer types pass
directly (uint64 wraps through the int64 conversion); floating point types
must survive the round trip float(n) == t; anything else is rejected. -/
def elemToInt64 : GoElem → Except Err Int
  | GoElem.byte t => Except.ok (wrapU 8 t)
  | GoElem.int t => Except.ok (wrapS 64 t)
  | GoElem.int8 t => Except.ok (wrapS 8 t)
  | GoElem.int16 t => Except.ok (wrapS 16 t)
  | GoElem.uint16 t => Except.ok (wrapU 16 t)
  | GoElem.int32 t => Except.ok (wrapS 32 t)
  | GoElem.uint32 t => Except.ok (wrapU 32 t)
  | GoElem.int64 t => Except.ok (wrapS 64 t)
  | GoElem.uint64 t => Except.ok (wrapS 64 (wrapU 64 t))
  | GoElem.float32 t =>
    if ((truncRat t : Int) : ℚ) ≠ t then Except.error invalidIntArrayErr
    else Except.ok (truncRat t)
  | GoElem.float64 t =>
    if ((truncRat t : Int) : ℚ) ≠ t then Except.error invalidIntArrayErr
    else Except.ok (truncRat t)
  | GoElem.other => Except.error invalidIntArrayErr

/-- The element loop of DownlinkFunctions.Encode: each element is converted
to an int64, checked against 0..255, and appended; the first failure aborts
the whole conversion with a nil slice. -/
def coerceBytes : List GoElem → Option (List Nat) × Option Err
  | [] => (some [], none)
  | el :: rest =>
    match elemToInt64 el with
    | Except.error e => (none, some e)
    | Except.ok n =>
      if n < 0 ∨ 255 < n then (none, some outOfRangeErr)
      else
        match coerceBytes rest with
        | (some bs, none) => (some (n.toNat :: bs), none)
        | (_, e) => (none, e)

/-- Encode stage. Empty Encoder: the missing-encoder error, with no call
into the runtime. Otherwise run the Encoder; the result must be
object-tagged, Export must succeed, the exported value must be a slice,
and the slice goes through the element loop. -/
def DownlinkFunctions.Encode (f : DownlinkFunctions) (run : RunCode)
    (payload : Option FieldMap) (port : Nat) : Option (List Nat) × Option Err :=
  if f.Encoder = "" then (none, some missingEncoderErr)
  else
    match run "Encoder" (encoderCode f.Encoder) (encodeEnv payload port) timeOut f.Logger with
    | Except.error e => (none, some e)
    | Except.ok value =>
      if !value.isObject then
        (none, some (Err.invalidArgument "Encoder" "does not return an object"))
      else
        match value.exportErr with
        | some e => (none, some e)
        | none =>
          match value.exported with
          | GoValue.slice xs => coerceBytes xs
          | _ => (none, some (Err.invalidArgument "Encoder" "does not return an Array"))

/-- Three-result downlink pipeline (the second method the source also names
Encode): run the Encode stage; an error gives (nil, false, err), success
gives (bytes, true, nil). -/
def DownlinkFunctions.EncodePipeline (f : DownlinkFunctions) (run : RunCode)
    (payload : Option FieldMap) (port : Nat) : Option (List Nat) × Bool × Option Err :=
  match f.Encode run payload port with
  | (_, some e) => (none, false, some e)
  | (encoded, none) => (encoded, true, none)

/-- Mathematical value of a slice element, when it has one: machine value
for integer types, the exact rational for floating point, none for a
non-numeric element. -/
def GoElem.value : GoElem → Option ℚ
  | GoElem.byte t => some ((wrapU 8 t : Int) : ℚ)
  | GoElem.int t => some ((wrapS 64 t : Int) : ℚ)
  | GoElem.int8 t => some ((wrapS 8 t : Int) : ℚ)
  | GoElem.int16 t => some ((wrapS 16 t : Int) : ℚ)
  | GoElem.uint16 t => some ((wrapU 16 t : Int) : ℚ)
  | GoElem.int32 t => some ((wrapS 32 t : Int) : ℚ)
  | GoElem.uint32 t => some ((wrapU 32 t : Int) : ℚ)
  | GoElem.int64 t => some ((wrapS 64 t : Int) : ℚ)
  | GoElem.uint64 t => some ((wrapU 64 t : Int) : ℚ)
  | GoElem.float32 t => some t
  | GoElem.float64 t => some t
  | GoElem.other => none

/-- Whether a slice element carries a Go floating point type. -/
def GoElem.isFloat : GoElem → Bool
  | GoElem.float32 _ => true
  | GoElem.float64 _ => true
  | _ => false

/-- An element whose value is a whole number between 0 and 255: the ones
the byte coercion accepts. -/
def goodByte (e : GoElem) : Prop :=
  ∃ n : Nat, GoElem.value e = some ((n : Nat) : ℚ) ∧ n ≤ 255

/-- A logger value; all loggers are observationally identical here. -/
def nullLogger : Logger := ()

/-- A small concrete field map used to instantiate theorems. -/
def sampleFields : FieldMap := [("a", FieldVal.num 1)]

/-- A runtime value tagged as an object exporting sampleFields. -/
def objVal : JsValue :=
  { isObject := true, isBoolean := false, exported := GoValue.map sampleFields,
    exportErr := none, toBool := false, toBoolErr := none }

/-- A runtime value shaped like a string: neither object nor boolean. -/
def strVal : JsValue :=
  { isObject := false, isBoolean := false, exported := GoValue.other,
    exportErr := none, toBool := true, toBoolErr := none }

/-- A runtime value that is the boolean false. -/
def boolFalseVal : JsValue :=
  { isObject := false, isBoolean := true, exported := GoValue.other,
    exportErr := none, toBool := false, toBoolErr := none }

/-- A runtime value tagged as an object exporting a numeric slice. -/
def sliceVal (xs : List GoElem) : JsValue :=
  { isObject := true, isBoolean := false, exported := GoValue.slice xs,
    exportErr := none, toBool := false, toBoolErr := none }

/-- A concrete runtime that answers each transform by its name. -/
def runByName (dec conv val enc : Except Err JsValue) : RunCode :=
  fun name _ _ _ _ =>
    if name = "Decoder" then dec
    else if name = "Converter" then conv
    else if name = "Validator" then val
    else enc

/-- C3: with all three uplink scripts empty, the pipeline returns
(nil, true, nil) for every runtime, payload and port; an empty Decoder
skips with nil fields, an empty Converter passes its input through
unchanged, and an empty Validator yields true. -/
theorem uplink_empty_transforms_passthrough :
    (∀ l run payload port,
      (UplinkFunctions.mk "" "" "" l).DecodePipeline run payload port = (none, true, none))
    ∧ (∀ c v l run payload port,
      (UplinkFunctions.mk "" c v l).Decode run payload port = (none, none))
    ∧ (∀ d v l run fields port,
      (UplinkFunctions.mk d "" v l).Convert run fields port = (fields, none))
    ∧ (∀ d c l run fields port,
      (UplinkFunctions.mk d c "" l).Validate run fields port = (true, none)) := by
  refine ⟨?_, ?_, ?_, ?_⟩ <;> intros <;> rfl

/-- C9: an empty Encoder yields the missing-encoder error for every field
map, in particular for a nil map and for an empty map, and for every
runtime (the result does not depend on the runtime, so no script runs). -/
theorem encode_empty_encoder_always_missing :
    (∀ l run fields port,
      (DownlinkFunctions.mk "" l).Encode run fields port = (none, some missingEncoderErr))
    ∧ (∀ l run fields port,
      (DownlinkFunctions.mk "" l).EncodePipeline run fields port
        = (none, false, some missingEncoderErr))
    ∧ (∀ l run port,
      (DownlinkFunctions.mk "" l).EncodePipeline run none port
        = (none, false, some missingEncoderErr))
    ∧ (∀ l run port,
      (DownlinkFunctions.mk "" l).EncodePipeline run (some []) port
        = (none, false, some missingEncoderErr)) := by
  refine ⟨?_, ?_, ?_, ?_⟩ <;> intros <;> rfl

/-- C4: a non-empty field map together with an empty Encoder script makes
the downlink pipeline return (nil, false, the missing-encoder error), for
every runtime, so no script is executed. -/
theorem encode_missing_encoder_on_nonempty_fields :
    ∀ l run kv m port,
      (DownlinkFunctions.mk "" l).EncodePipeline run (some (kv :: m)) port
        = (none, false, some missingEncoderErr) := by
  intros; rfl

/-- C7: the uplink pipeline sequences Decode, Convert, Validate with early
exit: a Decode error gives (nil, false, that error) and Convert and
Validate are never consulted; a Convert error after a successful Decode
gives (nil, false, that error); after both succeed the result is the
converted fields paired with the Validate outcome. -/
theorem uplink_pipeline_order_shortcircuit (f : UplinkFunctions) (run : RunCode)
    (payload : List Nat) (port : Nat) :
    (∀ x e, f.Decode run payload port = (x, some e) →
      f.DecodePipeline run payload port = (none, false, some e))
    ∧ (∀ d x e, f.Decode run payload port = (d, none) →
      f.Convert run d port = (x, some e) →
      f.DecodePipeline run payload port = (none, false, some e))
    ∧ (∀ d c, f.Decode run payload port = (d, none) →
      f.Convert run d port = (c, none) →
      f.DecodePipeline run payload port = (c, f.Validate run c port)) := by
  refine ⟨?_, ?_, ?_⟩
  · intro x e h
    simp [UplinkFunctions.DecodePipeline, h]
  · intro d x e h1 h2
    simp [UplinkFunctions.DecodePipeline, h1, h2]
  · intro d c h1 h2
    simp [UplinkFunctions.DecodePipeline, h1, h2]

/-- Closed instance of the short-circuit theorem: a runtime error in the
Decode stage propagates as (nil, false, that error). -/
theorem uplink_pipeline_order_shortcircuit_witness :
    (UplinkFunctions.mk "d" "c" "v" nullLogger).DecodePipeline
      (runByName (Except.error (Err.runtime "boom")) (Except.ok objVal)
        (Except.ok boolFalseVal) (Except.ok strVal)) [1, 2] 3
      = (none, false, some (Err.runtime "boom")) :=
  (uplink_pipeline_order_shortcircuit _ _ _ _).1 none (Err.runtime "boom") (by rfl)

/-- In every outcome of the byte coercion loop, the bytes or the error are
nil: a partially assembled sequence is never returned with an error. -/
theorem coerceBytes_excl (xs : List GoElem) :
    (coerceBytes xs).1 = none ∨ (coerceBytes xs).2 = none := by
  induction xs with
  | nil => right; rfl
  | cons el rest ih =>
    unfold coerceBytes
    cases helem : elemToInt64 el with
    | error e => left; rfl
    | ok n =>
      by_cases hr : n < 0 ∨ 255 < n
      · simp [hr]
      · simp only [if_neg hr]
        cases hc : coerceBytes rest with
        | mk b er =>
          cases b with
          | none => left; cases er <;> rfl
          | some bs => cases er with
            | none => right; rfl
            | some e => left; rfl

/-- C10: the Encode stage and the downlink pipeline are atomic in their
output: in every outcome either the returned byte slice is nil or the
error is nil, for every configuration, runtime, field map and port. -/
theorem encode_atomic_output (f : DownlinkFunctions) (run : RunCode)
    (payload : Option FieldMap) (port : Nat) :
    ((f.Encode run payload port).1 = none ∨ (f.Encode run payload port).2 = none)
    ∧ ((f.EncodePipeline run payload port).1 = none
        ∨ (f.EncodePipeline run payload port).2.2 = none) := by
  have hstage : (f.Encode run payload port).1 = none ∨ (f.Encode run payload port).2 = none := by
    unfold DownlinkFunctions.Encode
    by_cases he : f.Encoder = ""
    · simp [he]
    · simp only [if_neg he]
      cases run "Encoder" (encoderCode f.Encoder) (encodeEnv payload port) timeOut f.Logger with
      | error e => left; rfl
      | ok value =>
        by_cases hobj : !value.isObject
        · simp [hobj]
        · simp only [if_neg hobj]
          cases value.exportErr with
          | some e => left; rfl
          | none =>
            cases value.exported with
            | map m => left; rfl
            | other => left; rfl
            | slice xs => exact coerceBytes_excl xs
  refine ⟨hstage, ?_⟩
  unfold DownlinkFunctions.EncodePipeline
  cases hc : f.Encode run payload port with
  | mk b er =>
    cases er with
    | some e => left; rfl
    | none => right; rfl

/-- C5: when the Decoder or Converter script is present and the runtime
successfully returns a value that is not object-tagged, or does not export
to a string-keyed map, the stage returns no field map together with the
invalid-argument error naming the transform. -/
theorem uplink_nonobject_result_invalid (f : UplinkFunctions) (run : RunCode)
    (payload : List Nat) (fields : Option FieldMap) (port : Nat) (v : JsValue) :
    (f.Decoder ≠ "" →
      run "Decoder" (decoderCode f.Decoder) (decodeEnv payload port) timeOut f.Logger
        = Except.ok v →
      (v.isObject = false ∨ ∀ m, v.exported ≠ GoValue.map m) →
      f.Decode run payload port
        = (none, some (Err.invalidArgument "Decoder" "does not return an object")))
    ∧ (f.Converter ≠ "" →
      run "Converter" (converterCode f.Converter) (fieldsEnv fields port) timeOut f.Logger
        = Except.ok v →
      (v.isObject = false ∨ ∀ m, v.exported ≠ GoValue.map m) →
      f.Convert run fields port
        = (none, some (Err.invalidArgument "Converter" "does not return an object"))) := by
  constructor
  · intro hne hrun hbad
    unfold UplinkFunctions.Decode
    rw [if_neg hne]
    rcases hbad with hobj | hmap
    · simp [hrun, hobj]
    · by_cases hobj : v.isObject
      · cases hv : v.exported with
        | map m => exact absurd hv (hmap m)
        | slice xs => simp [hrun, hobj, hv]
        | other => simp [hrun, hobj, hv]
      · have hobj2 : v.isObject = false := by simpa using hobj
        simp [hrun, hobj2]
  · intro hne hrun hbad
    unfold UplinkFunctions.Convert
    rw [if_neg hne]
    rcases hbad with hobj | hmap
    · simp [hrun, hobj]
    · by_cases hobj : v.isObject
      · cases hv : v.exported with
        | map m => exact absurd hv (hmap m)
        | slice xs => simp [hrun, hobj, hv]
        | other => simp [hrun, hobj, hv]
      · have hobj2 : v.isObject = false := by simpa using hobj
        simp [hrun, hobj2]

/-- Closed instance of the non-object theorem: a Decoder returning a
string-like value fails with the invalid-argument error and no fields. -/
theorem uplink_nonobject_result_invalid_witness :
    (UplinkFunctions.mk "d" "" "" nullLogger).Decode
      (runByName (Except.ok strVal) (Except.ok strVal) (Except.ok strVal) (Except.ok strVal)) [] 0
      = (none, some (Err.invalidArgument "Decoder" "does not return an object")) :=
  (uplink_nonobject_result_invalid (UplinkFunctions.mk "d" "" "" nullLogger) _ [] none 0 strVal).1
    (by decide) (by rfl) (Or.inl (by rfl))

/-- C6: a Validator that successfully returns the boolean false gives the
stage outcome (false, nil) and, after a successful Decode and Convert, the
pipeline outcome (converted fields, false, nil) — a rejection with no
error; the two Validate-stage failure shapes (a runtime error, and a
non-boolean return) always carry a non-nil error. -/
theorem validator_false_rejection_no_error (f : UplinkFunctions) (run : RunCode)
    (payload : List Nat) (fields d c : Option FieldMap) (port : Nat) (v : JsValue) (e : Err) :
    (f.Validator ≠ "" →
      run "Validator" (validatorCode f.Validator) (fieldsEnv fields port) timeOut f.Logger
        = Except.ok v →
      v.isBoolean = true → v.toBool = false → v.toBoolErr = none →
      f.Validate run fields port = (false, none))
    ∧ (f.Validator ≠ "" →
      run "Validator" (validatorCode f.Validator) (fieldsEnv c port) timeOut f.Logger
        = Except.ok v →
      v.isBoolean = true → v.toBool = false → v.toBoolErr = none →
      f.Decode run payload port = (d, none) →
      f.Convert run d port = (c, none) →
      f.DecodePipeline run payload port = (c, false, none))
    ∧ (f.Validator ≠ "" →
      run "Validator" (validatorCode f.Validator) (fieldsEnv fields port) timeOut f.Logger
        = Except.error e →
      f.Validate run fields port = (false, some e))
    ∧ (f.Validator ≠ "" →
      run "Validator" (validatorCode f.Validator) (fieldsEnv fields port) timeOut f.Logger
        = Except.ok v →
      v.isBoolean = false →
      f.Validate run fields port
        = (false, some (Err.invalidArgument "Validator" "does not return a boolean"))) := by
  refine ⟨?_, ?_, ?_, ?_⟩
  · intro hne hrun hb hf hz
    unfold UplinkFunctions.Validate
    rw [if_neg hne]
    simp [hrun, hb, hf, hz]
  · intro hne hrun hb hf hz hdec hconv
    have hval : f.Validate run c port = (false, none) := by
      unfold UplinkFunctions.Validate
      rw [if_neg hne]
      simp [hrun, hb, hf, hz]
    simp [UplinkFunctions.DecodePipeline, hdec, hconv, hval]
  · intro hne hrun
    unfold UplinkFunctions.Validate
    rw [if_neg hne]
    simp [hrun]
  · intro hne hrun hb
    unfold UplinkFunctions.Validate
    rw [if_neg hne]
    simp [hrun, hb]

/-- Closed instance of the rejection theorem: a Validator returning the
boolean false after an object-producing Converter yields the converted
fields with isValid false and a nil error. -/
theorem validator_false_rejection_no_error_witness :
    (UplinkFunctions.mk "" "c" "v" nullLogger).DecodePipeline
      (runByName (Except.ok strVal) (Except.ok objVal) (Except.ok boolFalseVal)
        (Except.ok strVal)) [] 0
      = (some sampleFields, false, none) :=
  (validator_false_rejection_no_error (UplinkFunctions.mk "" "c" "v" nullLogger) _ [] none none
      (some sampleFields) 0 boolFalseVal (Err.runtime "x")).2.1
    (by decide) (by rfl) (by rfl) (by rfl) (by rfl) (by rfl) (by rfl)

/-- C1 counterexample: with an empty Decoder, a Converter producing an
object and a Validator returning a string, the pipeline reports the
invalid-argument error with isValid false, but the field map it returns is
the converted map and not nil — refuting the claim that every stage error
makes the returned FieldMap nil and that a string-returning Validator
yields a nil map. -/
theorem uplink_validate_error_keeps_fields_counterexample :
    (UplinkFunctions.mk "" "c" "v" nullLogger).DecodePipeline
      (runByName (Except.ok strVal) (Except.ok objVal) (Except.ok strVal)
        (Except.ok strVal)) [] 0
      = (some sampleFields, false,
          some (Err.invalidArgument "Validator" "does not return a boolean"))
    ∧ some sampleFields ≠ (none : Option FieldMap) := by
  exact ⟨by rfl, by simp⟩

/-- C1 amended: an error in the Decode or Convert stage makes the pipeline
return (nil, false, that error); a Validate-stage failure keeps the
converted fields instead of discarding them: a runtime error yields
(converted, false, that error) and a non-boolean Validator return, such as
a string, yields (converted, false, the invalid-argument error). -/
theorem uplink_pipeline_error_outcomes (f : UplinkFunctions) (run : RunCode)
    (payload : List Nat) (d c : Option FieldMap) (port : Nat) (v : JsValue) (e : Err) :
    (∀ x, f.Decode run payload port = (x, some e) →
      f.DecodePipeline run payload port = (none, false, some e))
    ∧ (∀ x, f.Decode run payload port = (d, none) →
      f.Convert run d port = (x, some e) →
      f.DecodePipeline run payload port = (none, false, some e))
    ∧ (f.Decode run payload port = (d, none) →
      f.Convert run d port = (c, none) →
      f.Validator ≠ "" →
      run "Validator" (validatorCode f.Validator) (fieldsEnv c port) timeOut f.Logger
        = Except.error e →
      f.DecodePipeline run payload port = (c, false, some e))
    ∧ (f.Decode run payload port = (d, none) →
      f.Convert run d port = (c, none) →
      f.Validator ≠ "" →
      run "Validator" (validatorCode f.Validator) (fieldsEnv c port) timeOut f.Logger
        = Except.ok v →
      v.isBoolean = false →
      f.DecodePipeline run payload port
        = (c, false, some (Err.invalidArgument "Validator" "does not return a boolean"))) := by
  refine ⟨?_, ?_, ?_, ?_⟩
  · intro x h
    simp [UplinkFunctions.DecodePipeline, h]
  · intro x h1 h2
    simp [UplinkFunctions.DecodePipeline, h1, h2]
  · intro h1 h2 hne hrun
    have hval : f.Validate run c port = (false, some e) := by
      unfold UplinkFunctions.Validate
      rw [if_neg hne]
      simp [hrun]
    simp [UplinkFunctions.DecodePipeline, h1, h2, hval]
  · intro h1 h2 hne hrun hb
    have hval : f.Validate run c port
        = (false, some (Err.invalidArgument "Validator" "does not return a boolean")) := by
      unfold UplinkFunctions.Validate
      rw [if_neg hne]
      simp [hrun, hb]
    simp [UplinkFunctions.DecodePipeline, h1, h2, hval]

/-- Closed instance of the amended error-outcome theorem: a Validator that
returns a string yields the converted fields, isValid false and the
invalid-argument error. -/
theorem uplink_pipeline_error_outcomes_witness :
    (UplinkFunctions.mk "" "c" "v" nullLogger).DecodePipeline
      (runByName (Except.ok objVal) (Except.ok objVal) (Except.ok strVal)
        (Except.ok strVal)) [9] 1
      = (some sampleFields, false,
          some (Err.invalidArgument "Validator" "does not return a boolean")) :=
  (uplink_pipeline_error_outcomes (UplinkFunctions.mk "" "c" "v" nullLogger) _ [9] none
      (some sampleFields) 1 strVal (Err.runtime "x")).2.2.2
    (by rfl) (by rfl) (by decide) (by rfl) (by rfl)

/-- A runtime that only answers when invoked with the shared timeout. -/
def timeoutProbe : RunCode := fun _ _ _ t _ =>
  if t = timeOut then Except.ok objVal else Except.error (Err.runtime "unexpected timeout")

/-- A runtime that always answers with an object value. -/
def constObjRun : RunCode := fun _ _ _ _ _ => Except.ok objVal

/-- C8: all four transform stages hand the runtime the single shared
constant timeOut, which equals 100 milliseconds: replacing the runtime by
any other runtime that agrees with it at timeout timeOut leaves every
stage unchanged, for every configuration and input, so no stage negotiates
a different timeout. -/
theorem all_stages_use_fixed_timeout :
    timeOut = 100
    ∧ ∀ (r1 r2 : RunCode),
      (∀ name code env l, r1 name code env timeOut l = r2 name code env timeOut l) →
      (∀ f payload port, UplinkFunctions.Decode f r1 payload port
          = UplinkFunctions.Decode f r2 payload port)
      ∧ (∀ f fields port, UplinkFunctions.Convert f r1 fields port
          = UplinkFunctions.Convert f r2 fields port)
      ∧ (∀ f fields port, UplinkFunctions.Validate f r1 fields port
          = UplinkFunctions.Validate f r2 fields port)
      ∧ (∀ f payload port, DownlinkFunctions.Encode f r1 payload port
          = DownlinkFunctions.Encode f r2 payload port) := by
  refine ⟨rfl, ?_⟩
  intro r1 r2 hagree
  refine ⟨?_, ?_, ?_, ?_⟩
  · intro f payload port
    unfold UplinkFunctions.Decode
    rw [hagree]
  · intro f fields port
    unfold UplinkFunctions.Convert
    rw [hagree]
  · intro f fields port
    unfold UplinkFunctions.Validate
    rw [hagree]
  · intro f payload port
    unfold DownlinkFunctions.Encode
    rw [hagree]

/-- Closed instance of the fixed-timeout theorem: a probe runtime that
fails at every timeout other than timeOut behaves exactly like the
unconditional runtime in the Decode stage. -/
theorem all_stages_use_fixed_timeout_witness :
    UplinkFunctions.Decode (UplinkFunctions.mk "d" "" "" nullLogger) timeoutProbe [1] 2
      = UplinkFunctions.Decode (UplinkFunctions.mk "d" "" "" nullLogger) constObjRun [1] 2 :=
  (all_stages_use_fixed_timeout.2 timeoutProbe constObjRun (fun _ _ _ _ => rfl)).1
    (UplinkFunctions.mk "d" "" "" nullLogger) [1] 2

/-- Truncation toward zero is the identity on integers. -/
theorem truncRat_intCast (k : Int) : truncRat ((k : Int) : ℚ) = k := by
  unfold truncRat
  split
  · exact Int.floor_intCast k
  · exact Int.ceil_intCast k

/-- A rational with a nontrivial denominator does not survive the round
trip through truncation: this is the test the source uses to reject
fractional floating point values. -/
theorem truncRat_cast_ne (q : ℚ) (h : q.den ≠ 1) : ((truncRat q : Int) : ℚ) ≠ q := by
  intro heq
  have hd := congrArg Rat.den heq
  rw [Rat.den_intCast] at hd
  exact h hd.symm

/-- Truncation toward zero is the identity on natural number casts. -/
theorem truncRat_natCast (n : Nat) : truncRat ((n : Nat) : ℚ) = ((n : Nat) : Int) := by
  have hc : ((n : Nat) : ℚ) = (((n : Nat) : Int) : ℚ) := by push_cast; ring
  rw [hc, truncRat_intCast]

/-- An accepted element: a good byte converts to its own value. -/
theorem goodByte_elem (e : GoElem) (h : goodByte e) :
    ∃ n : Nat, n ≤ 255 ∧ elemToInt64 e = Except.ok ((n : Nat) : Int)
      ∧ GoElem.value e = some ((n : Nat) : ℚ) := by
  obtain ⟨n, hv, hle⟩ := h
  refine ⟨n, hle, ?_, hv⟩
  cases e with
  | byte t =>
    simp only [GoElem.value, Option.some.injEq] at hv
    have hw : wrapU 8 t = (n : Int) := by exact_mod_cast hv
    simp [elemToInt64, hw]
  | int t =>
    simp only [GoElem.value, Option.some.injEq] at hv
    have hw : wrapS 64 t = (n : Int) := by exact_mod_cast hv
    simp [elemToInt64, hw]
  | int8 t =>
    simp only [GoElem.value, Option.some.injEq] at hv
    have hw : wrapS 8 t = (n : Int) := by exact_mod_cast hv
    simp [elemToInt64, hw]
  | int16 t =>
    simp only [GoElem.value, Option.some.injEq] at hv
    have hw : wrapS 16 t = (n : Int) := by exact_mod_cast hv
    simp [elemToInt64, hw]
  | uint16 t =>
    simp only [GoElem.value, Option.some.injEq] at hv
    have hw : wrapU 16 t = (n : Int) := by exact_mod_cast hv
    simp [elemToInt64, hw]
  | int32 t =>
    simp only [GoElem.value, Option.some.injEq] at hv
    have hw : wrapS 32 t = (n : Int) := by exact_mod_cast hv
    simp [elemToInt64, hw]
  | uint32 t =>
    simp only [GoElem.value, Option.some.injEq] at hv
    have hw : wrapU 32 t = (n : Int) := by exact_mod_cast hv
    simp [elemToInt64, hw]
  | int64 t =>
    simp only [GoElem.value, Option.some.injEq] at hv
    have hw : wrapS 64 t = (n : Int) := by exact_mod_cast hv
    simp [elemToInt64, hw]
  | uint64 t =>
    simp only [GoElem.value, Option.some.injEq] at hv
    have hw : wrapU 64 t = (n : Int) := by exact_mod_cast hv
    have hs : wrapS 64 ((n : Nat) : Int) = ((n : Nat) : Int) := by
      unfold wrapS
      norm_num
      omega
    simp [elemToInt64, hw, hs]
  | float32 t =>
    simp only [GoElem.value, Option.some.injEq] at hv
    have ht : t = (((n : Nat) : Int) : ℚ) := by exact_mod_cast hv
    simp [elemToInt64, ht, truncRat_intCast, truncRat_natCast]
  | float64 t =>
    simp only [GoElem.value, Option.some.injEq] at hv
    have ht : t = (((n : Nat) : Int) : ℚ) := by exact_mod_cast hv
    simp [elemToInt64, ht, truncRat_intCast, truncRat_natCast]
  | other =>
    simp [GoElem.value] at hv

/-- The loop step on an accepted element followed by a succeeding tail
prepends the byte of the element. -/
theorem coerceBytes_cons_good_ok (el : GoElem) (xs : List GoElem) (n : Nat) (bs : List Nat)
    (hle : n ≤ 255) (helem : elemToInt64 el = Except.ok ((n : Nat) : Int))
    (hxs : coerceBytes xs = (some bs, none)) :
    coerceBytes (el :: xs) = (some (n :: bs), none) := by
  have hnot : ¬ (((n : Nat) : Int) < 0 ∨ 255 < ((n : Nat) : Int)) := by
    push_neg
    exact ⟨by positivity, by exact_mod_cast hle⟩
  simp only [coerceBytes, helem, if_neg hnot, hxs]
  simp

/-- The loop step on an accepted element followed by a failing tail
propagates the failure with nil bytes. -/
theorem coerceBytes_cons_good_fail (el : GoElem) (xs : List GoElem) (n : Nat) (e : Err)
    (hle : n ≤ 255) (helem : elemToInt64 el = Except.ok ((n : Nat) : Int))
    (hxs : coerceBytes xs = (none, some e)) :
    coerceBytes (el :: xs) = (none, some e) := by
  have hnot : ¬ (((n : Nat) : Int) < 0 ∨ 255 < ((n : Nat) : Int)) := by
    push_neg
    exact ⟨by positivity, by exact_mod_cast hle⟩
  simp only [coerceBytes, helem, if_neg hnot, hxs]

/-- A prefix of accepted elements does not change a failing outcome. -/
theorem coerceBytes_good_prefix (pre rest : List GoElem) (e : Err)
    (hpre : ∀ x ∈ pre, goodByte x) (hrest : coerceBytes rest = (none, some e)) :
    coerceBytes (pre ++ rest) = (none, some e) := by
  induction pre with
  | nil => simpa using hrest
  | cons el pre2 ih =>
    obtain ⟨n, hle, helem, _⟩ := goodByte_elem el (hpre el (by simp))
    have ih2 := ih (fun x hx => hpre x (by simp [hx]))
    rw [List.cons_append]
    exact coerceBytes_cons_good_fail el _ n e hle helem ih2

/-- A floating point element with a fractional part is rejected by the
type switch with the integer-numbers error. -/
theorem elemToInt64_frac (e : GoElem) (q : ℚ) (hf : GoElem.isFloat e = true)
    (hv : GoElem.value e = some q) (hden : q.den ≠ 1) :
    elemToInt64 e = Except.error invalidIntArrayErr := by
  cases e with
  | float32 t =>
    simp only [GoElem.value, Option.some.injEq] at hv
    subst hv
    simp [elemToInt64, truncRat_cast_ne t hden]
  | float64 t =>
    simp only [GoElem.value, Option.some.injEq] at hv
    subst hv
    simp [elemToInt64, truncRat_cast_ne t hden]
  | byte t => simp [GoElem.isFloat] at hf
  | int t => simp [GoElem.isFloat] at hf
  | int8 t => simp [GoElem.isFloat] at hf
  | int16 t => simp [GoElem.isFloat] at hf
  | uint16 t => simp [GoElem.isFloat] at hf
  | int32 t => simp [GoElem.isFloat] at hf
  | uint32 t => simp [GoElem.isFloat] at hf
  | int64 t => simp [GoElem.isFloat] at hf
  | uint64 t => simp [GoElem.isFloat] at hf
  | other => simp [GoElem.isFloat] at hf

/-- A whole-valued element outside 0..255 passes the type switch but the
int64 the switch computes lies outside 0..255 as well. -/
theorem elemToInt64_outrange (e : GoElem) (k : Int)
    (hv : GoElem.value e = some ((k : Int) : ℚ)) (hr : k < 0 ∨ 255 < k) :
    ∃ n : Int, elemToInt64 e = Except.ok n ∧ (n < 0 ∨ 255 < n) := by
  cases e with
  | byte t =>
    exfalso
    simp only [GoElem.value, Option.some.injEq] at hv
    have hw : wrapU 8 t = k := by exact_mod_cast hv
    unfold wrapU at hw
    norm_num at hw
    omega
  | int t =>
    simp only [GoElem.value, Option.some.injEq] at hv
    have hw : wrapS 64 t = k := by exact_mod_cast hv
    exact ⟨k, by simp [elemToInt64, hw], hr⟩
  | int8 t =>
    simp only [GoElem.value, Option.some.injEq] at hv
    have hw : wrapS 8 t = k := by exact_mod_cast hv
    exact ⟨k, by simp [elemToInt64, hw], hr⟩
  | int16 t =>
    simp only [GoElem.value, Option.some.injEq] at hv
    have hw : wrapS 16 t = k := by exact_mod_cast hv
    exact ⟨k, by simp [elemToInt64, hw], hr⟩
  | uint16 t =>
    simp only [GoElem.value, Option.some.injEq] at hv
    have hw : wrapU 16 t = k := by exact_mod_cast hv
    exact ⟨k, by simp [elemToInt64, hw], hr⟩
  | int32 t =>
    simp only [GoElem.value, Option.some.injEq] at hv
    have hw : wrapS 32 t = k := by exact_mod_cast hv
    exact ⟨k, by simp [elemToInt64, hw], hr⟩
  | uint32 t =>
    simp only [GoElem.value, Option.some.injEq] at hv
    have hw : wrapU 32 t = k := by exact_mod_cast hv
    exact ⟨k, by simp [elemToInt64, hw], hr⟩
  | int64 t =>
    simp only [GoElem.value, Option.some.injEq] at hv
    have hw : wrapS 64 t = k := by exact_mod_cast hv
    exact ⟨k, by simp [elemToInt64, hw], hr⟩
  | uint64 t =>
    simp only [GoElem.value, Option.some.injEq] at hv
    have hw : wrapU 64 t = k := by exact_mod_cast hv
    refine ⟨wrapS 64 (wrapU 64 t), by simp [elemToInt64], ?_⟩
    rw [hw]
    unfold wrapU at hw
    norm_num at hw
    unfold wrapS
    norm_num
    omega
  | float32 t =>
    simp only [GoElem.value, Option.some.injEq] at hv
    refine ⟨k, ?_, hr⟩
    simp [elemToInt64, hv, truncRat_intCast]
  | float64 t =>
    simp only [GoElem.value, Option.some.injEq] at hv
    refine ⟨k, ?_, hr⟩
    simp [elemToInt64, hv, truncRat_intCast]
  | other =>
    simp [GoElem.value] at hv

/-- A list of accepted elements coerces to a byte sequence of the same
length carrying the element values in order. -/
theorem coerceBytes_all_good (xs : List GoElem) (h : ∀ e ∈ xs, goodByte e) :
    ∃ bs, coerceBytes xs = (some bs, none) ∧ bs.length = xs.length
      ∧ List.map (fun b => ((b : Nat) : ℚ)) bs
          = List.map (fun x => (GoElem.value x).getD 0) xs := by
  induction xs with
  | nil => exact ⟨[], rfl, rfl, rfl⟩
  | cons el rest ih =>
    obtain ⟨n, hle, helem, hval⟩ := goodByte_elem el (h el (by simp))
    obtain ⟨bs, hcs, hlen, hmap⟩ := ih (fun x hx => h x (by simp [hx]))
    refine ⟨n :: bs, ?_, by simp [hlen], ?_⟩
    · exact coerceBytes_cons_good_ok el rest n bs hle helem hcs
    · simp [hmap, hval]

/-- The rational three halves, the value 1.5 of the testable property. -/
def threeHalves : ℚ := ⟨3, 2, by decide, by decide⟩

/-- C2: the element loop of DownlinkFunctions.Encode implements the byte
coercion contract: a list whose elements are all whole numbers in 0..255
yields a byte sequence of the same length carrying the values in their
original order; after any prefix of accepted elements, a floating point
element with a fractional part yields the integer-numbers error and a
whole-valued element outside 0..255 yields the out-of-range error;
concretely a 1.5 element fails with the integer-numbers error, 256 and -1
fail with the out-of-range error, and the list 0, 255 yields the bytes 0
and 255; and the Encode stage applies exactly this loop to every slice the
runtime exports. -/
theorem encode_byte_coercion (pre rest : List GoElem) (e : GoElem) (q : ℚ) (k : Int) :
    (∀ xs, (∀ x ∈ xs, goodByte x) → ∃ bs, coerceBytes xs = (some bs, none)
      ∧ bs.length = xs.length
      ∧ List.map (fun b => ((b : Nat) : ℚ)) bs
          = List.map (fun x => (GoElem.value x).getD 0) xs)
    ∧ ((∀ x ∈ pre, goodByte x) → GoElem.isFloat e = true → GoElem.value e = some q →
      q.den ≠ 1 → coerceBytes (pre ++ e :: rest) = (none, some invalidIntArrayErr))
    ∧ ((∀ x ∈ pre, goodByte x) → GoElem.value e = some ((k : Int) : ℚ) →
      (k < 0 ∨ 255 < k) → coerceBytes (pre ++ e :: rest) = (none, some outOfRangeErr))
    ∧ coerceBytes [GoElem.float64 threeHalves] = (none, some invalidIntArrayErr)
    ∧ coerceBytes [GoElem.float64 256] = (none, some outOfRangeErr)
    ∧ coerceBytes [GoElem.float64 (-1)] = (none, some outOfRangeErr)
    ∧ coerceBytes [GoElem.float64 0, GoElem.float64 255] = (some [0, 255], none)
    ∧ (∀ (f : DownlinkFunctions) (run : RunCode) payload port v xs, f.Encoder ≠ "" →
      run "Encoder" (encoderCode f.Encoder) (encodeEnv payload port) timeOut f.Logger
        = Except.ok v →
      v.isObject = true → v.exportErr = none → v.exported = GoValue.slice xs →
      f.Encode run payload port = coerceBytes xs) := by
  refine ⟨coerceBytes_all_good, ?_, ?_, by decide, by decide, by decide, by decide, ?_⟩
  · intro hpre hf hv hden
    apply coerceBytes_good_prefix pre _ _ hpre
    simp only [coerceBytes, elemToInt64_frac e q hf hv hden]
  · intro hpre hv hr
    apply coerceBytes_good_prefix pre _ _ hpre
    obtain ⟨n, helem, hnr⟩ := elemToInt64_outrange e k hv hr
    simp only [coerceBytes, helem, if_pos hnr]
  · intro f run payload port v xs hne hrun hobj hexp hsl
    unfold DownlinkFunctions.Encode
    rw [if_neg hne]
    simp [hrun, hobj, hexp, hsl]

/-- Closed instance of the byte coercion theorem: 256 is rejected as out
of range, and the list 0, 255 is assembled in order into two bytes. -/
theorem encode_byte_coercion_witness :
    coerceBytes [GoElem.float64 256] = (none, some outOfRangeErr)
    ∧ ∃ bs, coerceBytes [GoElem.float64 0, GoElem.float64 255] = (some bs, none)
      ∧ bs.length = 2
      ∧ List.map (fun b => ((b : Nat) : ℚ)) bs
          = List.map (fun x => (GoElem.value x).getD 0)
              [GoElem.float64 0, GoElem.float64 255] := by
  constructor
  · exact (encode_byte_coercion [] [] (GoElem.float64 256) 0 256).2.2.1
      (by intro x hx; simp at hx) (by norm_num [GoElem.value]) (by norm_num)
  · exact (encode_byte_coercion [] [] GoElem.other 0 0).1
      [GoElem.float64 0, GoElem.float64 255]
      (by
        intro x hx
        simp only [List.mem_cons, List.not_mem_nil, or_false] at hx
        rcases hx with hx | hx
        · exact hx ▸ ⟨0, by norm_num [GoElem.value], by norm_num⟩
        · exact hx ▸ ⟨255, by norm_num [GoElem.value], by norm_num⟩)
